import Mathlib

/-!
Shallow embedding of the document-intelligence pipeline
(`src/classifier.py`, `src/extractor.py`, `src/retrieval.py`, `src/main.py`)
and proofs about it.

Text is modelled as `List Char` (Python `str` of code points); Python floats
are modelled as `ℚ`; fallible operations return `Option`; the external
zero-shot classifier, the PDF text extractor and the FAISS similarity search
are external collaborators and appear as oracle parameters (an exception
raised by the collaborator is `none`).
-/

namespace DocPipeline

abbrev Str := List Char

/-- Python whitespace characters (ASCII range), as recognised by
`str.strip`, `str.split` and the regex class `\s`. -/
def isPyWs (c : Char) : Bool :=
  c = ' ' || c = '\t' || c = '\n' || c = '\x0d' || c = '\x0b' || c = '\x0c'

/-- ASCII lowercasing of one character (Python `str.lower` on ASCII input). -/
def lowerChar (c : Char) : Char :=
  if 65 ≤ c.toNat ∧ c.toNat ≤ 90 then Char.ofNat (c.toNat + 32) else c

/-- ASCII uppercasing of one character (Python `str.upper` on ASCII input). -/
def upperChar (c : Char) : Char :=
  if 97 ≤ c.toNat ∧ c.toNat ≤ 122 then Char.ofNat (c.toNat - 32) else c

/-- Python `text.lower()` (ASCII range). -/
def lowerStr (t : Str) : Str := t.map lowerChar

/-- Python `text.upper()` (ASCII range). -/
def upperStr (t : Str) : Str := t.map upperChar

/-- Python `text.strip()`: remove leading and trailing whitespace
(internal whitespace is kept). -/
def pyStrip (t : Str) : Str :=
  ((t.dropWhile isPyWs).reverse.dropWhile isPyWs).reverse

/-- Python substring test `kw in t`. -/
def substrIn (kw t : Str) : Bool :=
  (List.range (t.length + 1)).any fun i => kw.isPrefixOf (t.drop i)

/-- Number of (possibly overlapping) occurrences of `kw` in `t`; used to
state the spec's "repetition matters" reading of the keyword count. -/
def countOccurrences (kw t : Str) : ℕ :=
  (List.range (t.length + 1)).countP fun i => kw.isPrefixOf (t.drop i)

/-! ## Rule Engine (`DocumentClassifier._apply_rules`) -/

/-- `invoice_keywords` from `_apply_rules`. -/
def invoiceKeywords : List Str :=
  (["invoice", "invoice number", "invoice #", "bill to",
    "total amount", "amount due", "payment terms", "subtotal",
    "tax", "vat", "due date"] : List String).map String.toList

/-- `resume_keywords` from `_apply_rules`. -/
def resumeKeywords : List Str :=
  (["resume", "curriculum vitae", "cv", "experience",
    "education", "skills", "objective", "professional summary",
    "work history", "employment", "qualifications"] : List String).map String.toList

/-- `utility_keywords` from `_apply_rules`. -/
def utilityKeywords : List Str :=
  (["utility", "electric", "electricity", "gas", "water",
    "kwh", "kilowatt", "meter", "usage", "service address",
    "account number", "billing period", "current charges"] : List String).map String.toList

/-- `sum(1 for kw in keywords if kw in text_lower)`: the number of keywords
of the list that occur (at least once) as a substring of `textLower`. -/
def keywordCount (kws : List Str) (textLower : Str) : ℕ :=
  kws.countP fun kw => substrIn kw textLower

/-- `DocumentClassifier._apply_rules(text, predicted_class, confidence)`. -/
def applyRules (text : Str) (predictedClass : String) (confidence : ℚ) : String :=
  let textLower := lowerStr text
  let invoiceCount := keywordCount invoiceKeywords textLower
  let resumeCount := keywordCount resumeKeywords textLower
  let utilityCount := keywordCount utilityKeywords textLower
  if 3 ≤ invoiceCount ∧ predictedClass ≠ "Invoice" then "Invoice"
  else if 3 ≤ resumeCount ∧ predictedClass ≠ "Resume" then "Resume"
  else if 3 ≤ utilityCount ∧ predictedClass ≠ "Utility Bill" then "Utility Bill"
  else if confidence < 1/2 ∧ max invoiceCount (max resumeCount utilityCount) < 2 then "Other"
  else predictedClass

/-- The refinement rule as the spec words it (claim C2): the override is
evaluated over the categories in the fixed order Invoice, Resume,
Utility Bill, returning the first whose keyword count is ≥ 3 and which
differs from the current label; if none fires, demote to `Other` exactly
when the confidence is below 0.50 and the maximum keyword count is below 2,
and otherwise keep the label. -/
def refineSpec (text : Str) (label : String) (confidence : ℚ) : String :=
  let textLower := lowerStr text
  let ic := keywordCount invoiceKeywords textLower
  let rc := keywordCount resumeKeywords textLower
  let uc := keywordCount utilityKeywords textLower
  match [("Invoice", ic), ("Resume", rc), ("Utility Bill", uc)].find?
      (fun p => decide (3 ≤ p.2) && decide (p.1 ≠ label)) with
  | some p => p.1
  | none =>
      if confidence < 1/2 ∧ max ic (max rc uc) < 2 then "Other" else label

/-! ## Classification Orchestrator (`DocumentClassifier.classify`)

The external zero-shot classifier is an oracle
`ext : Str → Option (String × ℚ)` mapping the (possibly truncated) text it
is shown to the top-ranked `(label, confidence)` pair; `none` models an
exception raised by the external call. -/

/-- `DocumentClassifier.classify(text)`. -/
def classify (ext : Str → Option (String × ℚ)) (text : Str) : String :=
  if text = [] ∨ (pyStrip text).length < 10 then "Unclassifiable"
  else
    match ext (text.take 2000) with
    | none => "Unclassifiable"
    | some (label, confidence) =>
        if confidence < 3/10 then "Unclassifiable"
        else applyRules text label confidence

/-- The claim C3 reading of the input guard: the number of non-whitespace
characters of the text. -/
def nonWsCount (t : Str) : ℕ := t.countP fun c => ¬ isPyWs c

/-! ## Field Extraction Cascade (`DataExtractor`)

Each regex of `_compile_patterns` is embedded as a matcher
`Str → Option β` that attempts the pattern at the head of the string
(returning the capture, or the whole match where the code uses `group(0)`),
and `re.search` is the leftmost application `reFind`.  Where a quantifier
needs backtracking the matcher enumerates the alternatives in the regex
engine's priority order (greedy first). -/

/-- `re.search`: try the matcher at each position, leftmost first. -/
def reFind {α : Type} (m : Str → Option α) : Str → Option α
  | [] => m []
  | c :: rest =>
    match m (c :: rest) with
    | some r => some r
    | none => reFind m rest

/-- `re.search` for a matcher that needs the character before the current
position (for the `\b` word-boundary assertion). -/
def reFindB {α : Type} (m : Option Char → Str → Option α) :
    Option Char → Str → Option α
  | prev, [] => m prev []
  | prev, c :: rest =>
    match m prev (c :: rest) with
    | some r => some r
    | none => reFindB m (some c) rest

/-- Match a literal case-insensitively (patterns compiled with
`re.IGNORECASE`), returning the rest of the string. -/
def litCI : Str → Str → Option Str
  | [], t => some t
  | _ :: _, [] => none
  | c :: cs, x :: xs => if lowerChar x = lowerChar c then litCI cs xs else none

/-- Match a literal exactly (case-sensitive pattern), returning the rest. -/
def litEx : Str → Str → Option Str
  | [], t => some t
  | _ :: _, [] => none
  | c :: cs, x :: xs => if x = c then litEx cs xs else none

/-- Greedy `c?` whose follow set cannot contain `c`: consume `c` when
present. -/
def optCh (c : Char) (t : Str) : Str :=
  match t with
  | x :: xs => if x = c then xs else t
  | [] => t

/-- Greedy `(?:lit)?` whose follow set cannot restart the literal. -/
def optLitEx (s t : Str) : Str :=
  match litEx s t with
  | some r => r
  | none => t

/-- The regex class `[A-Z0-9\-]` under `re.IGNORECASE`. -/
def alnumDash (c : Char) : Bool := c.isAlphanum || c = '-'

/-- `invoice\s*#?\s*:?\s*([A-Z0-9\-]+)` -/
def matchInvNum1 (t : Str) : Option Str :=
  (litCI "invoice".toList t).bind fun r =>
    let r := r.dropWhile isPyWs
    let r := optCh '#' r
    let r := r.dropWhile isPyWs
    let r := optCh ':' r
    let r := r.dropWhile isPyWs
    let g := r.takeWhile alnumDash
    if g = [] then none else some g

/-- `inv\s*#?\s*:?\s*([A-Z0-9\-]+)` -/
def matchInvNum2 (t : Str) : Option Str :=
  (litCI "inv".toList t).bind fun r =>
    let r := r.dropWhile isPyWs
    let r := optCh '#' r
    let r := r.dropWhile isPyWs
    let r := optCh ':' r
    let r := r.dropWhile isPyWs
    let g := r.takeWhile alnumDash
    if g = [] then none else some g

/-- `invoice\s*number\s*:?\s*([A-Z0-9\-]+)` -/
def matchInvNum3 (t : Str) : Option Str :=
  (litCI "invoice".toList t).bind fun r =>
    (litCI "number".toList (r.dropWhile isPyWs)).bind fun r =>
      let r := r.dropWhile isPyWs
      let r := optCh ':' r
      let r := r.dropWhile isPyWs
      let g := r.takeWhile alnumDash
      if g = [] then none else some g

def invoiceNumberPatterns : List (Str → Option Str) :=
  [matchInvNum1, matchInvNum2, matchInvNum3]

/-- `account\s*number\s*:?\s*([A-Z0-9\-]+)` -/
def matchAccountNum (t : Str) : Option Str :=
  (litCI "account".toList t).bind fun r =>
    (litCI "number".toList (r.dropWhile isPyWs)).bind fun r =>
      let r := r.dropWhile isPyWs
      let r := optCh ':' r
      let r := r.dropWhile isPyWs
      let g := r.takeWhile alnumDash
      if g = [] then none else some g

/-- `DataExtractor._extract_with_patterns`: lowercase the text, return the
stripped first capture of the first pattern that matches. -/
def extractWithPatterns (text : Str) (patterns : List (Str → Option Str)) :
    Option Str :=
  let textLower := lowerStr text
  patterns.findSome? fun p => (reFind p textLower).map pyStrip

/-! ### Date patterns (`date_patterns`) and normalization (`_normalize_date`) -/

/-- `\d{4}-\d{2}-\d{2}` at the current position (`group(0)`). -/
def matchDateISO (t : Str) : Option Str :=
  match t with
  | a :: b :: c :: d :: '-' :: e :: f :: '-' :: g :: h :: _ =>
    if a.isDigit && b.isDigit && c.isDigit && d.isDigit && e.isDigit && f.isDigit
        && g.isDigit && h.isDigit then
      some [a, b, c, d, '-', e, f, '-', g, h]
    else none
  | _ => none

/-- `\d{2}/\d{2}/\d{4}` at the current position. -/
def matchDateSlash (t : Str) : Option Str :=
  match t with
  | a :: b :: '/' :: c :: d :: '/' :: e :: f :: g :: h :: _ =>
    if a.isDigit && b.isDigit && c.isDigit && d.isDigit && e.isDigit && f.isDigit
        && g.isDigit && h.isDigit then
      some [a, b, '/', c, d, '/', e, f, g, h]
    else none
  | _ => none

/-- `\d{2}-\d{2}-\d{4}` at the current position. -/
def matchDateDMY (t : Str) : Option Str :=
  match t with
  | a :: b :: '-' :: c :: d :: '-' :: e :: f :: g :: h :: _ =>
    if a.isDigit && b.isDigit && c.isDigit && d.isDigit && e.isDigit && f.isDigit
        && g.isDigit && h.isDigit then
      some [a, b, '-', c, d, '-', e, f, g, h]
    else none
  | _ => none

def monthAbbrevPats : List Str :=
  (["Jan", "Feb", "Mar", "Apr", "May", "Jun",
    "Jul", "Aug", "Sep", "Oct", "Nov", "Dec"] : List String).map String.toList

/-- Exactly four digits, returned together with the rest. -/
def fourDigits (t : Str) : Option Str :=
  match t with
  | a :: b :: c :: d :: _ =>
    if a.isDigit && b.isDigit && c.isDigit && d.isDigit then some [a, b, c, d] else none
  | _ => none

/-- `(?:Jan|Feb|…|Dec)[a-z]*\s+\d{1,2},?\s+\d{4}` under `re.IGNORECASE`, at
the current position; the quantifiers `\d{1,2}` and `,?` are backtracked in
greedy priority order, the rest are greedy-deterministic (their follow sets
are disjoint from their character classes). -/
def matchDateMonth (t : Str) : Option Str :=
  monthAbbrevPats.findSome? fun mon =>
    (litCI mon t).bind fun r1 =>
      let monTxt := t.take mon.length
      let tail := r1.takeWhile Char.isAlpha
      let r2 := r1.drop tail.length
      let ws1 := r2.takeWhile isPyWs
      if ws1 = [] then none else
      let r3 := r2.drop ws1.length
      let tryRest : Str → Str → Option Str := fun ds r4 =>
        let withComma : Option Str :=
          match r4 with
          | ',' :: r5 =>
            let ws2 := r5.takeWhile isPyWs
            if ws2 = [] then none else
            (fourDigits (r5.drop ws2.length)).map fun y4 => ds ++ ',' :: ws2 ++ y4
          | _ => none
        match withComma with
        | some s => some s
        | none =>
          let ws2 := r4.takeWhile isPyWs
          if ws2 = [] then none else
          (fourDigits (r4.drop ws2.length)).map fun y4 => ds ++ ws2 ++ y4
      let attempt : Option Str :=
        match
          (match r3 with
           | d1 :: d2 :: r4 =>
             if d1.isDigit && d2.isDigit then tryRest [d1, d2] r4 else none
           | _ => none) with
        | some s => some s
        | none =>
          match r3 with
          | d1 :: r4 => if d1.isDigit then tryRest [d1] r4 else none
          | _ => none
      attempt.map fun s => monTxt ++ tail ++ ws1 ++ s

/-- `date_patterns`, in declaration order. -/
def datePatterns : List (Str → Option Str) :=
  [matchDateISO, matchDateSlash, matchDateDMY, matchDateMonth]

/-- The year/month/day fields gathered by `datetime.strptime`
(defaults 1900-01-01). -/
structure DateParts where
  y : ℕ
  mo : ℕ
  dy : ℕ
deriving DecidableEq

/-- A format directive of the `_normalize_date` format strings. -/
inductive Directive where
  | year4
  | month2
  | day2
  | monthFull
  | monthAbbr
  | lit (c : Char)
  | ws
deriving DecidableEq

def digitVal (c : Char) : ℕ := c.toNat - 48

/-- `%Y`, compiled by `_strptime` to `(\d\d\d\d)`: exactly four digits. -/
def stepYear (s : Str) : List (ℕ × Str) :=
  match s with
  | a :: b :: c :: d :: r =>
    if a.isDigit && b.isDigit && c.isDigit && d.isDigit then
      [(digitVal a * 1000 + digitVal b * 100 + digitVal c * 10 + digitVal d, r)]
    else []
  | _ => []

/-- `%m`, compiled to `(1[0-2]|0[1-9]|[1-9])`, alternatives in that order. -/
def stepMonthNum (s : Str) : List (ℕ × Str) :=
  (match s with
   | '1' :: c :: r => if '0' ≤ c ∧ c ≤ '2' then [(10 + digitVal c, r)] else []
   | _ => []) ++
  (match s with
   | '0' :: c :: r => if '1' ≤ c ∧ c ≤ '9' then [(digitVal c, r)] else []
   | _ => []) ++
  (match s with
   | c :: r => if '1' ≤ c ∧ c ≤ '9' then [(digitVal c, r)] else []
   | _ => [])

/-- `%d`, compiled to `(3[01]|[12]\d|0[1-9]|[1-9])`, in that order. -/
def stepDayNum (s : Str) : List (ℕ × Str) :=
  (match s with
   | '3' :: c :: r => if c = '0' ∨ c = '1' then [(30 + digitVal c, r)] else []
   | _ => []) ++
  (match s with
   | a :: c :: r =>
     if (a = '1' ∨ a = '2') ∧ c.isDigit then [(10 * digitVal a + digitVal c, r)] else []
   | _ => []) ++
  (match s with
   | '0' :: c :: r => if '1' ≤ c ∧ c ≤ '9' then [(digitVal c, r)] else []
   | _ => []) ++
  (match s with
   | c :: r => if '1' ≤ c ∧ c ≤ '9' then [(digitVal c, r)] else []
   | _ => [])

/-- `%B`: full month names, alternation ordered longest first as
`_strptime.TimeRE.__seqToRE` builds it, matched case-insensitively. -/
def monthFullNames : List (ℕ × Str) :=
  ([(9, "september"), (2, "february"), (11, "november"), (12, "december"),
    (1, "january"), (10, "october"), (8, "august"), (3, "march"), (4, "april"),
    (6, "june"), (7, "july"), (5, "may")] : List (ℕ × String)).map
    fun p => (p.1, p.2.toList)

/-- `%b`: abbreviated month names, matched case-insensitively. -/
def monthAbbrNames : List (ℕ × Str) :=
  ([(1, "jan"), (2, "feb"), (3, "mar"), (4, "apr"), (5, "may"), (6, "jun"),
    (7, "jul"), (8, "aug"), (9, "sep"), (10, "oct"), (11, "nov"), (12, "dec")] :
    List (ℕ × String)).map fun p => (p.1, p.2.toList)

def stepMonthName (names : List (ℕ × Str)) (s : Str) : List (ℕ × Str) :=
  names.filterMap fun p => (litCI p.2 s).map fun r => (p.1, r)

/-- A literal character of a format string (`-`, `/`, `,`). -/
def stepLit (c : Char) (s : Str) : List (Unit × Str) :=
  match s with
  | x :: r => if x = c then [((), r)] else []
  | [] => []

/-- Whitespace in a format string, compiled by `_strptime` to `\s+`; its
follow set here is never whitespace, so greedy is deterministic. -/
def stepWs (s : Str) : List (Unit × Str) :=
  let run := s.takeWhile isPyWs
  if run = [] then [] else [((), s.drop run.length)]

/-- Run a directive list against the input, producing the complete parses
in the regex engine's priority order. -/
def runDirs : List Directive → DateParts → Str → List (DateParts × Str)
  | [], acc, s => [(acc, s)]
  | .year4 :: rest, acc, s =>
    (stepYear s).flatMap fun p => runDirs rest { acc with y := p.1 } p.2
  | .month2 :: rest, acc, s =>
    (stepMonthNum s).flatMap fun p => runDirs rest { acc with mo := p.1 } p.2
  | .day2 :: rest, acc, s =>
    (stepDayNum s).flatMap fun p => runDirs rest { acc with dy := p.1 } p.2
  | .monthFull :: rest, acc, s =>
    (stepMonthName monthFullNames s).flatMap fun p => runDirs rest { acc with mo := p.1 } p.2
  | .monthAbbr :: rest, acc, s =>
    (stepMonthName monthAbbrNames s).flatMap fun p => runDirs rest { acc with mo := p.1 } p.2
  | .lit c :: rest, acc, s =>
    (stepLit c s).flatMap fun p => runDirs rest acc p.2
  | .ws :: rest, acc, s =>
    (stepWs s).flatMap fun p => runDirs rest acc p.2

/-- `datetime.strptime(s, fmt)` up to field extraction: the regex `match`
commits to its first (priority) match, and strptime then requires that it
consumed the whole string (`unconverted data remains` otherwise). -/
def parseWith (dirs : List Directive) (s : Str) : Option DateParts :=
  match runDirs dirs ⟨1900, 1, 1⟩ s with
  | [] => none
  | (acc, rest) :: _ => if rest = [] then some acc else none

def isLeapYear (y : ℕ) : Bool := (y % 4 = 0 ∧ y % 100 ≠ 0) ∨ y % 400 = 0

def daysInMonth (y mo : ℕ) : ℕ :=
  if mo = 2 then (if isLeapYear y then 29 else 28)
  else if mo = 4 ∨ mo = 6 ∨ mo = 9 ∨ mo = 11 then 30
  else 31

/-- The calendar validation performed by the `datetime` constructor
(`day is out of range for month`, `year … is out of range`). -/
def validDate (p : DateParts) : Bool :=
  1 ≤ p.y ∧ 1 ≤ p.dy ∧ p.dy ≤ daysInMonth p.y p.mo

def pad2 (n : ℕ) : Str := [Nat.digitChar (n / 10 % 10), Nat.digitChar (n % 10)]

def pad4 (n : ℕ) : Str :=
  [Nat.digitChar (n / 1000 % 10), Nat.digitChar (n / 100 % 10),
   Nat.digitChar (n / 10 % 10), Nat.digitChar (n % 10)]

/-- `dt.strftime('%Y-%m-%d')`. -/
def fmtDateISO (p : DateParts) : Str := pad4 p.y ++ '-' :: pad2 p.mo ++ '-' :: pad2 p.dy

/-- The `formats` list of `_normalize_date`, in order:
`%Y-%m-%d`, `%m/%d/%Y`, `%d-%m-%Y`, `%B %d, %Y`, `%b %d, %Y`,
`%B %d %Y`, `%b %d %Y`. -/
def dateFormats : List (List Directive) :=
  [[.year4, .lit '-', .month2, .lit '-', .day2],
   [.month2, .lit '/', .day2, .lit '/', .year4],
   [.day2, .lit '-', .month2, .lit '-', .year4],
   [.monthFull, .ws, .day2, .lit ',', .ws, .year4],
   [.monthAbbr, .ws, .day2, .lit ',', .ws, .year4],
   [.monthFull, .ws, .day2, .ws, .year4],
   [.monthAbbr, .ws, .day2, .ws, .year4]]

/-- `DataExtractor._normalize_date`: the first format that parses (a
`ValueError`, including calendar validation, moves on to the next format)
is re-emitted as `YYYY-MM-DD`. -/
def normalizeDate (s : Str) : Option Str :=
  dateFormats.findSome? fun dirs =>
    (parseWith dirs s).bind fun p =>
      if validDate p then some (fmtDateISO p) else none

/-- `DataExtractor._extract_date`, the loop over `date_patterns`: a pattern
whose leftmost match does not normalize falls through to the next pattern. -/
def extractDateAux : List (Str → Option Str) → Str → Option Str
  | [], _ => none
  | p :: ps, text =>
    match reFind p text with
    | some m =>
      match normalizeDate m with
      | some n => some n
      | none => extractDateAux ps text
    | none => extractDateAux ps text

def extractDate (text : Str) : Option Str := extractDateAux datePatterns text

/-- The date cascade as the amended claim C4 words it: the result is the
first date-shape pattern, in order, whose leftmost match normalizes
successfully; a shape whose match parses under no format does not stop the
cascade. -/
def extractDateSpec (text : Str) : Option Str :=
  (datePatterns.filterMap fun p => (reFind p text).bind normalizeDate).head?

/-- A string of the canonical shape `YYYY-MM-DD`. -/
def isCanonicalISO (s : Str) : Bool :=
  match s with
  | [a, b, c, d, e, f, g, h, i, j] =>
    a.isDigit && b.isDigit && c.isDigit && d.isDigit && e = '-' &&
    f.isDigit && g.isDigit && h = '-' && i.isDigit && j.isDigit
  | _ => false

/-! ### Amounts, usage, experience -/

/-- The regex class `[\d,]`. -/
def digitComma (c : Char) : Bool := c.isDigit || c = ','

/-- The common tail `\s*:?\s*\$?\s*([\d,]+\.?\d*)` of the amount patterns;
every quantifier's follow set is disjoint from its class, so greedy is
deterministic. -/
def matchAmountTail (r : Str) : Option Str :=
  let r := r.dropWhile isPyWs
  let r := optCh ':' r
  let r := r.dropWhile isPyWs
  let r := optCh '$' r
  let r := r.dropWhile isPyWs
  let g1 := r.takeWhile digitComma
  if g1 = [] then none else
  match r.drop g1.length with
  | '.' :: r2 => some (g1 ++ '.' :: r2.takeWhile Char.isDigit)
  | _ => some g1

/-- `total\s*amount\s*:?\s*\$?\s*([\d,]+\.?\d*)` -/
def matchAmount1 (t : Str) : Option Str :=
  (litCI "total".toList t).bind fun r =>
    (litCI "amount".toList (r.dropWhile isPyWs)).bind matchAmountTail

/-- `amount\s*due\s*:?\s*\$?\s*([\d,]+\.?\d*)` -/
def matchAmount2 (t : Str) : Option Str :=
  (litCI "amount".toList t).bind fun r =>
    (litCI "due".toList (r.dropWhile isPyWs)).bind matchAmountTail

/-- `total\s*:?\s*\$?\s*([\d,]+\.?\d*)` -/
def matchAmount3 (t : Str) : Option Str :=
  (litCI "total".toList t).bind matchAmountTail

/-- `grand\s*total\s*:?\s*\$?\s*([\d,]+\.?\d*)` -/
def matchAmount4 (t : Str) : Option Str :=
  (litCI "grand".toList t).bind fun r =>
    (litCI "total".toList (r.dropWhile isPyWs)).bind matchAmountTail

def amountPatterns : List (Str → Option Str) :=
  [matchAmount1, matchAmount2, matchAmount3, matchAmount4]

def natOfDigits (ds : Str) : ℕ := ds.foldl (fun acc c => acc * 10 + digitVal c) 0

/-- Python `str.split(sep)` for a single-character separator
(keeps empty pieces). -/
def pySplitOn (sep : Char) (t : Str) : List Str :=
  t.foldr (fun c acc =>
    if c = sep then [] :: acc
    else
      match acc with
      | h :: tl => (c :: h) :: tl
      | [] => [[c]]) [[]]

/-- Python `float(s)` restricted to the strings the amount/usage groups can
produce after comma removal: digits, at most one dot, digits; `""` and `"."`
raise `ValueError` (`none`). -/
def pyFloatOfClean (s : Str) : Option ℚ :=
  if s.all (fun c => c.isDigit || c = '.') then
    match pySplitOn '.' s with
    | [a] => if a = [] then none else some (natOfDigits a : ℚ)
    | [a, b] =>
      if a = [] ∧ b = [] then none
      else some ((natOfDigits a : ℚ) + (natOfDigits b : ℚ) / (10 : ℚ) ^ b.length)
    | _ => none
  else none

/-- `DataExtractor._extract_amount`: first amount pattern whose capture
(commas removed) parses as a float; a `ValueError` continues the loop. -/
def extractAmount (text : Str) : Option ℚ :=
  let textLower := lowerStr text
  amountPatterns.findSome? fun p =>
    (reFind p textLower).bind fun g => pyFloatOfClean (g.filter fun c => c ≠ ',')

/-- `(\d+\.?\d*)\s*kwh` at the current position (pattern and text are both
lowercase; no `IGNORECASE` flag is passed for this one). -/
def matchUsage (t : Str) : Option Str :=
  let d1 := t.takeWhile Char.isDigit
  if d1 = [] then none else
  let r1 := t.drop d1.length
  let gr : Str × Str :=
    match r1 with
    | '.' :: rr => (d1 ++ '.' :: rr.takeWhile Char.isDigit, rr.dropWhile Char.isDigit)
    | _ => (d1, r1)
  let r3 := gr.2.dropWhile isPyWs
  (litEx "kwh".toList r3).map fun _ => gr.1

/-- `DataExtractor._extract_usage`. -/
def extractUsage (text : Str) : Option ℚ :=
  (reFind matchUsage (lowerStr text)).bind fun g => pyFloatOfClean g

/-- `(\d+)\s*\+?\s*years?\s*(?:of)?\s*experience` at the current position
(applied to the lowercased text). -/
def matchExp1 (t : Str) : Option Str :=
  let d := t.takeWhile Char.isDigit
  if d = [] then none else
  let r := (t.drop d.length).dropWhile isPyWs
  let r := optCh '+' r
  let r := r.dropWhile isPyWs
  (litEx "year".toList r).bind fun r =>
    let r := optCh 's' r
    let r := r.dropWhile isPyWs
    let r := optLitEx "of".toList r
    let r := r.dropWhile isPyWs
    (litEx "experience".toList r).map fun _ => d

/-- `experience\s*:?\s*(\d+)\s*\+?\s*years?` at the current position. -/
def matchExp2 (t : Str) : Option Str :=
  (litEx "experience".toList t).bind fun r =>
    let r := r.dropWhile isPyWs
    let r := optCh ':' r
    let r := r.dropWhile isPyWs
    let d := r.takeWhile Char.isDigit
    if d = [] then none else
    let r2 := (r.drop d.length).dropWhile isPyWs
    let r2 := optCh '+' r2
    let r2 := r2.dropWhile isPyWs
    (litEx "year".toList r2).map fun _ => d

def experiencePatterns : List (Str → Option Str) := [matchExp1, matchExp2]

/-- Python `int(s)` on a capture of `(\d+)` (always succeeds there). -/
def pyIntOfDigits (s : Str) : Option ℤ :=
  if s ≠ [] ∧ s.all Char.isDigit then some (natOfDigits s : ℤ) else none

/-- `DataExtractor._extract_experience_years`. -/
def extractExperienceYears (text : Str) : Option ℤ :=
  experiencePatterns.findSome? fun p =>
    (reFind p (lowerStr text)).bind fun g => pyIntOfDigits g

/-! ### Phone, email, company, name -/

/-- The regex class `[-.\s]`. -/
def sepCls (c : Char) : Bool := c = '-' || c = '.' || isPyWs c

/-- Consume one given character or fail. -/
def chOpt (c : Char) (t : Str) : Option Str :=
  match t with
  | x :: xs => if x = c then some xs else none
  | [] => none

/-- Consume one character of a class or fail. -/
def clsOpt (p : Char → Bool) (t : Str) : Option Str :=
  match t with
  | x :: xs => if p x then some xs else none
  | [] => none

/-- Greedy `?`: the with-consumption alternative first, then without. -/
def optAlt (consume : Str → Option Str) (t : Str) : List Str :=
  match consume t with
  | some r => [r, t]
  | none => [t]

/-- Consume exactly `n` digits. -/
def repDigits : ℕ → Str → Option Str
  | 0, t => some t
  | _ + 1, [] => none
  | n + 1, c :: r => if c.isDigit then repDigits n r else none

/-- `\+?\d{1,3}[-.\s]?\(?\d{3}\)?[-.\s]?\d{3}[-.\s]?\d{4}` at the current
position, enumerating the quantifier alternatives in the regex engine's
backtracking order; the whole match (`group(0)`) is returned. -/
def matchPhone1 (t : Str) : Option Str :=
  let s1 := optAlt (chOpt '+') t
  let s2 := s1.flatMap fun r => ([3, 2, 1] : List ℕ).filterMap fun n => repDigits n r
  let s3 := s2.flatMap (optAlt (clsOpt sepCls))
  let s4 := s3.flatMap (optAlt (chOpt '('))
  let s5 := s4.filterMap (repDigits 3)
  let s6 := s5.flatMap (optAlt (chOpt ')'))
  let s7 := s6.flatMap (optAlt (clsOpt sepCls))
  let s8 := s7.filterMap (repDigits 3)
  let s9 := s8.flatMap (optAlt (clsOpt sepCls))
  let s10 := s9.filterMap (repDigits 4)
  s10.head?.map fun rest => t.take (t.length - rest.length)

/-- `\d{3}-\d{3}-\d{4}` at the current position. -/
def matchPhone2 (t : Str) : Option Str :=
  (repDigits 3 t).bind fun r =>
    (chOpt '-' r).bind fun r =>
      (repDigits 3 r).bind fun r =>
        (chOpt '-' r).bind fun r =>
          (repDigits 4 r).map fun rest => t.take (t.length - rest.length)

/-- `\(\d{3}\)\s*\d{3}-\d{4}` at the current position. -/
def matchPhone3 (t : Str) : Option Str :=
  (chOpt '(' t).bind fun r =>
    (repDigits 3 r).bind fun r =>
      (chOpt ')' r).bind fun r =>
        let r := r.dropWhile isPyWs
        (repDigits 3 r).bind fun r =>
          (chOpt '-' r).bind fun r =>
            (repDigits 4 r).map fun rest => t.take (t.length - rest.length)

def phonePatterns : List (Str → Option Str) := [matchPhone1, matchPhone2, matchPhone3]

/-- `DataExtractor._extract_phone` (searches the original text). -/
def extractPhone (text : Str) : Option Str :=
  phonePatterns.findSome? fun p => reFind p text

/-- Python regex `\w` on ASCII. -/
def isWordChar (c : Char) : Bool := c.isAlphanum || c = '_'

def wordish : Option Char → Bool
  | some c => isWordChar c
  | none => false

/-- The `\b` assertion between two (optional) adjacent characters. -/
def boundaryB (a b : Option Char) : Bool := wordish a != wordish b

/-- The regex class `[A-Za-z0-9._%+-]`. -/
def localCls (c : Char) : Bool :=
  c.isAlphanum || c = '.' || c = '_' || c = '%' || c = '+' || c = '-'

/-- The regex class `[A-Za-z0-9.-]`. -/
def domainCls (c : Char) : Bool := c.isAlphanum || c = '.' || c = '-'

/-- The regex class `[A-Z|a-z]`: as written it also contains the bar. -/
def tldCls (c : Char) : Bool := c.isAlpha || c = '|'

/-- `\b[A-Za-z0-9._%+-]+@[A-Za-z0-9.-]+\.[A-Z|a-z]{2,}\b` at the current
position (`prev` is the character before it).  The domain `+` and the
`{2,}` backtrack from longest to shortest as the engine does; the local
part is greedy-deterministic (`@` is outside its class). -/
def matchEmailAt (prev : Option Char) (t : Str) : Option Str :=
  if boundaryB prev t.head? then
    let loc := t.takeWhile localCls
    if loc = [] then none else
    match t.drop loc.length with
    | '@' :: r2 =>
      let dom := r2.takeWhile domainCls
      (List.range dom.length).reverse.findSome? fun k =>
        if 1 ≤ k then
          match dom.drop k with
          | '.' :: afterDot =>
            let r3 := r2.drop dom.length
            let tldAll := (afterDot ++ r3).takeWhile tldCls
            let rest3 := (afterDot ++ r3).drop tldAll.length
            (List.range (tldAll.length + 1)).reverse.findSome? fun j =>
              if 2 ≤ j ∧ j ≤ tldAll.length then
                if boundaryB ((tldAll.take j).getLast?) ((tldAll.drop j ++ rest3).head?) then
                  some (loc ++ '@' :: dom.take k ++ '.' :: tldAll.take j)
                else none
              else none
          | _ => none
        else none
    | _ => none
  else none

/-- `DataExtractor._extract_email` (searches the original text). -/
def extractEmail (text : Str) : Option Str :=
  reFindB matchEmailAt none text

/-- The regex class `[A-Za-z\s&]`. -/
def compCls (c : Char) : Bool := c.isAlpha || isPyWs c || c = '&'

/-- The company suffix alternation, in its written order. -/
def companySuffixes : List Str :=
  (["Inc", "LLC", "Ltd", "Corporation", "Corp", "Company", "Co"] : List String).map
    String.toList

/-- `([A-Z][A-Za-z\s&]+(?:Inc|LLC|Ltd|Corporation|Corp|Company|Co)\.?)` at
the current position (case-sensitive); the `+` backtracks from longest to
shortest, the suffix alternation is tried in written order at each split. -/
def matchCompanyAt (t : Str) : Option Str :=
  match t with
  | c :: rest =>
    if c.isUpper then
      let run := rest.takeWhile compCls
      (List.range run.length).reverse.findSome? fun km1 =>
        let k := km1 + 1
        companySuffixes.findSome? fun suf =>
          (litEx suf (rest.drop k)).map fun rem2 =>
            let dot : Str :=
              match rem2 with
              | '.' :: _ => ['.']
              | _ => []
            c :: rest.take k ++ suf ++ dot
    else none
  | [] => none

/-- `DataExtractor._extract_company_name` (searches the original text and
strips the capture). -/
def extractCompanyName (text : Str) : Option Str :=
  (reFind matchCompanyAt text).map pyStrip

/-- Python `str.split()` with no argument: split on whitespace runs,
dropping empty pieces. -/
def pySplitWs (t : Str) : List Str :=
  (t.foldr (fun c acc =>
    if isPyWs c then [] :: acc
    else
      match acc with
      | h :: tl => (c :: h) :: tl
      | [] => [[c]]) [[]]).filter fun w => w ≠ []

/-- `not any(header in line.lower() for header in ['resume','cv','curriculum'])` -/
def nameHeadersOk (line : Str) : Bool :=
  ¬ ((["resume", "cv", "curriculum"] : List String).any fun h =>
      substrIn h.toList (lowerStr line))

/-- `all(w[0].isupper() for w in words if w and w[0].isalpha())`, per word. -/
def wordCapsOk (w : Str) : Bool :=
  match w with
  | [] => true
  | c :: _ => if c.isAlpha then c.isUpper else true

/-- `DataExtractor._extract_name`: among the first 5 lines, the first
stripped line of 2–4 whitespace-delimited words whose alphabetic-initial
words are capitalized and which mentions no header word. -/
def extractName (text : Str) : Option Str :=
  ((pySplitOn '\n' text).take 5).findSome? fun line =>
    let words := pySplitWs (pyStrip line)
    if 2 ≤ words.length ∧ words.length ≤ 4 ∧ words.all wordCapsOk ∧ nameHeadersOk line
    then some (pyStrip line) else none

/-! ### The extraction dispatch (`DataExtractor.extract`) -/

/-- A structured-field value: string, float or int. -/
inductive FieldVal where
  | s (v : Str)
  | q (v : ℚ)
  | z (v : ℤ)
deriving DecidableEq

/-- Python truthiness of `Optional[str]`: `None` and `""` are falsy. -/
def truthyStr (o : Option Str) : Option Str :=
  o.bind fun v => if v = [] then none else some v

/-- Python truthiness of `Optional[float]`: `None` and `0.0` are falsy. -/
def truthyQ (o : Option ℚ) : Option ℚ :=
  o.bind fun v => if v = 0 then none else some v

/-- Python truthiness of `Optional[int]`: `None` and `0` are falsy. -/
def truthyZ (o : Option ℤ) : Option ℤ :=
  o.bind fun v => if v = 0 then none else some v

def entryOpt (name : String) (o : Option FieldVal) : List (String × FieldVal) :=
  match o with
  | some v => [(name, v)]
  | none => []

/-- `DataExtractor._extract_invoice`. -/
def extractInvoice (text : Str) : List (String × FieldVal) :=
  entryOpt "invoice_number"
    ((truthyStr (extractWithPatterns text invoiceNumberPatterns)).map fun v =>
      .s (upperStr v)) ++
  entryOpt "date" ((truthyStr (extractDate text)).map .s) ++
  entryOpt "company" ((truthyStr (extractCompanyName text)).map .s) ++
  entryOpt "total_amount" ((truthyQ (extractAmount text)).map .q)

/-- `DataExtractor._extract_resume`. -/
def extractResume (text : Str) : List (String × FieldVal) :=
  entryOpt "name" ((truthyStr (extractName text)).map .s) ++
  entryOpt "email" ((truthyStr (extractEmail text)).map .s) ++
  entryOpt "phone" ((truthyStr (extractPhone text)).map .s) ++
  entryOpt "experience_years" ((truthyZ (extractExperienceYears text)).map .z)

/-- `DataExtractor._extract_utility_bill`. -/
def extractUtilityBill (text : Str) : List (String × FieldVal) :=
  entryOpt "account_number"
    ((truthyStr (extractWithPatterns text [matchAccountNum])).map fun v =>
      .s (upperStr v)) ++
  entryOpt "date" ((truthyStr (extractDate text)).map .s) ++
  entryOpt "usage_kwh" ((truthyQ (extractUsage text)).map .q) ++
  entryOpt "amount_due" ((truthyQ (extractAmount text)).map .q)

/-- `DataExtractor.extract(text, doc_type)`. -/
def extract (text : Str) (docType : String) : List (String × FieldVal) :=
  if docType = "Invoice" then extractInvoice text
  else if docType = "Resume" then extractResume text
  else if docType = "Utility Bill" then extractUtilityBill text
  else []

/-! ## Index Manager (`SemanticRetrieval`)

The FAISS vector store and the embedding model are external collaborators:
a collection's in-memory content is its list of stored documents, and
`similarity_search_with_score` is an oracle over that content (`none`
models an exception raised by the external call). -/

/-- A LangChain `Document`: `page_content` plus the `filename` metadata
entry (`metadata.get('filename', 'unknown')` tolerates its absence). -/
structure Doc where
  pageContent : Str
  filenameMeta : Option Str
deriving DecidableEq

/-- `self.vectorstores`: collection id → stored documents, in insertion
order of the collections. -/
abbrev StoreState := List (String × List Doc)

def lookupStore (st : StoreState) (indexName : String) : Option (List Doc) :=
  (st.find? fun p => p.1 == indexName).map Prod.snd

/-- `SemanticRetrieval.add_document` (the synchronous `_save_index` after
the mutation touches only disk, not the in-memory state). -/
def addDocument (st : StoreState) (indexName : String) (filename : Str)
    (text : Str) : StoreState :=
  match lookupStore st indexName with
  | none => st ++ [(indexName, [⟨text, some filename⟩])]
  | some _ =>
    st.map fun p =>
      if p.1 == indexName then (p.1, p.2 ++ [⟨text, some filename⟩]) else p

abbrev SimOracle := List Doc → Str → ℕ → Option (List (Doc × ℚ))

/-- Banker's rounding of a rational to the nearest integer
(Python `round` semantics). -/
def roundHalfEven (q : ℚ) : ℤ :=
  let f := ⌊q⌋
  let r := q - f
  if r < 1/2 then f
  else if 1/2 < r then f + 1
  else if f % 2 = 0 then f else f + 1

/-- `round(score, 4)`. -/
def round4 (q : ℚ) : ℚ := (roundHalfEven (q * 10000) : ℚ) / 10000

/-- `doc.page_content[:300] + "..." if len(doc.page_content) > 300 else
doc.page_content` -/
def snippetOf (content : Str) : Str :=
  if 300 < content.length then content.take 300 ++ "...".toList else content

/-- One formatted search result (`SemanticRetrieval.search`). -/
structure FormattedResult where
  rank : ℕ
  filename : Str
  score : ℚ
  snippet : Str
deriving DecidableEq

/-- One result of the enumerate loop, at index `i`. -/
def fmtOne (i : ℕ) (r : Doc × ℚ) : FormattedResult :=
  { rank := i + 1
  , filename := r.1.filenameMeta.getD "unknown".toList
  , score := round4 r.2
  , snippet := snippetOf r.1.pageContent }

/-- `for i, (doc, score) in enumerate(results): …` starting at index `i`. -/
def formatResults : ℕ → List (Doc × ℚ) → List FormattedResult
  | _, [] => []
  | i, r :: rest => fmtOne i r :: formatResults (i + 1) rest

/-- `SemanticRetrieval.search`. -/
def search (sim : SimOracle) (st : StoreState) (indexName : String)
    (query : Str) (topK : ℕ) : List FormattedResult :=
  match lookupStore st indexName with
  | none => []
  | some docs =>
    match sim docs query topK with
    | none => []
    | some results => formatResults 0 results

/-! ## HTTP layer (`main.py`) -/

/-- `schemas.SearchRequest` (its pydantic validation — nonempty query,
`top_k ∈ [1, 20]` — happens before this value exists). -/
structure SearchRequestM where
  index_name : String
  query : Str
  top_k : ℕ

/-- `schemas.SearchResult`. -/
structure SearchResultM where
  rank : ℕ
  filename : Str
  similarity_score : ℚ
  text_snippet : Option Str
deriving DecidableEq

/-- `schemas.SearchResponse`. -/
structure SearchResponseM where
  query : Str
  results : List SearchResultM
  total_results : ℕ
deriving DecidableEq

/-- `main.search_documents`. -/
def searchDocuments (sim : SimOracle) (st : StoreState) (req : SearchRequestM) :
    SearchResponseM :=
  let results := search sim st req.index_name req.query req.top_k
  if results = [] then
    { query := req.query, results := [], total_results := 0 }
  else
    let searchResults := results.map fun r =>
      ({ rank := r.rank, filename := r.filename, similarity_score := r.score,
         text_snippet := some r.snippet } : SearchResultM)
    { query := req.query, results := searchResults,
      total_results := searchResults.length }

/-- The externally visible side effects of `main.upload_document`, in
program order. -/
inductive Effect where
  | saveFile (filename : String)
  | classifyCall
  | extractCall
  | indexAdd (indexName : String)
  | writeOutput
deriving DecidableEq

/-- The record `upload_document` returns on success. -/
structure UploadResult where
  filename : String
  index_name : String
  docClass : String
  fields : List (String × FieldVal)
deriving DecidableEq

/-- Python `filename.endswith('.pdf')` (case-sensitive). -/
def strEndsWith (s sfx : String) : Bool := sfx.toList.isSuffixOf s.toList

/-- `main.upload_document`: `extractTextO` is the PDF text extraction
collaborator (`DocumentProcessor.extract_text`, empty on failure), `ext`
the external classifier oracle.  Returns the HTTP outcome, the side
effects performed in order, and the updated index state. -/
def uploadDocument (extractTextO : String → Str)
    (ext : Str → Option (String × ℚ)) (st : StoreState)
    (filename : String) (indexName : String) :
    Except (ℕ × String) UploadResult × List Effect × StoreState :=
  if ¬ strEndsWith filename ".pdf" then
    (.error (400, "Only PDF files are supported"), [], st)
  else
    let text := extractTextO filename
    if text = [] then
      (.error (400, "Failed to extract text from PDF"), [.saveFile filename], st)
    else
      let docType := classify ext text
      let extractedData := extract text docType
      let st2 := addDocument st indexName filename.toList text
      (.ok { filename := filename, index_name := indexName, docClass := docType,
             fields := extractedData },
       [.saveFile filename, .classifyCall, .extractCall, .indexAdd indexName,
        .writeOutput],
       st2)

/-! ## Helper lemmas -/

/-- A keyword is "in" the text (Python `in`) iff it occurs at least once. -/
theorem substrIn_eq_occ (kw t : Str) :
    substrIn kw t = decide (0 < countOccurrences kw t) := by
  by_cases h : 0 < countOccurrences kw t
  · rw [decide_eq_true h]
    rw [countOccurrences, List.countP_pos_iff] at h
    rw [substrIn, List.any_eq_true]
    exact h
  · rw [decide_eq_false h]
    rw [countOccurrences, List.countP_pos_iff] at h
    rw [substrIn]
    rcases hb : (List.range (t.length + 1)).any fun i => kw.isPrefixOf (t.drop i) with _ | _
    · rfl
    · exact absurd (List.any_eq_true.mp hb) h

/-! ## C1 -/

/-- C1: the claim reads the Rule Engine's per-category keyword count as
counting every occurrence of every keyword, so that a single keyword
occurring 3 times contributes 3 and reaches the override threshold.  The
code counts presence only: in `"invoice invoice invoice"` the keyword
`invoice` occurs 3 times, yet the category count is 1 and no override to
`"Invoice"` happens. -/
theorem C1_occurrences_counterexample :
    countOccurrences "invoice".toList (lowerStr "invoice invoice invoice".toList) = 3 ∧
    keywordCount invoiceKeywords (lowerStr "invoice invoice invoice".toList) = 1 ∧
    applyRules "invoice invoice invoice".toList "Other" (9/10) = "Other" := by
  refine ⟨by decide, by decide, ?_⟩
  simp only [applyRules]
  split_ifs with hA hB hC hD
  · exact absurd hA.1 (by decide)
  · exact absurd hB.1 (by decide)
  · exact absurd hC.1 (by decide)
  · rfl
  · rfl

/-- C1 (amended): the keyword count for each category counts each keyword
at most once — a keyword contributes exactly 1 when it occurs at least once
as a substring of the lowercased text, regardless of how many times it
occurs; so a single keyword repeated 3 times contributes only 1. -/
theorem C1_presence_count (text : Str) :
    keywordCount invoiceKeywords (lowerStr text)
      = invoiceKeywords.countP
          (fun kw => decide (0 < countOccurrences kw (lowerStr text))) ∧
    keywordCount resumeKeywords (lowerStr text)
      = resumeKeywords.countP
          (fun kw => decide (0 < countOccurrences kw (lowerStr text))) ∧
    keywordCount utilityKeywords (lowerStr text)
      = utilityKeywords.countP
          (fun kw => decide (0 < countOccurrences kw (lowerStr text))) := by
  refine ⟨?_, ?_, ?_⟩ <;>
    exact List.countP_congr fun kw _ => by rw [substrIn_eq_occ kw (lowerStr text)]

/-! ## C2 -/

/-- C2: for every (text, label, confidence) the Rule Engine evaluates the
override rule in the fixed order Invoice, Resume, Utility Bill, returning
the first category whose keyword count is ≥ 3 and which differs from the
current label; if no override fires it returns "Other" exactly when the
confidence is below 0.50 and the maximum keyword count across the three
categories is below 2, and otherwise returns the original label. -/
theorem C2_override_order (text : Str) (label : String) (confidence : ℚ) :
    applyRules text label confidence = refineSpec text label confidence := by
  simp only [applyRules, refineSpec]
  by_cases h1 : 3 ≤ keywordCount invoiceKeywords (lowerStr text) <;>
  by_cases h2 : label = "Invoice" <;>
  by_cases h3 : 3 ≤ keywordCount resumeKeywords (lowerStr text) <;>
  by_cases h4 : label = "Resume" <;>
  by_cases h5 : 3 ≤ keywordCount utilityKeywords (lowerStr text) <;>
  by_cases h6 : label = "Utility Bill" <;>
  simp [List.find?, h1, h2, h3, h4, h5, h6, eq_comm]

/-! ## C3 -/

/-- C3 counterexample: `"a b c d e f"` has only 6 non-whitespace
characters, yet its stripped length is 11, so `classify` does invoke the
external classifier and can return `"Invoice"`. -/
theorem C3_nonws_counterexample :
    nonWsCount "a b c d e f".toList < 10 ∧
    classify (fun _ => some ("Invoice", 9/10)) "a b c d e f".toList = "Invoice" := by
  constructor
  · decide
  · simp only [classify]
    rw [if_neg (by decide :
      ¬ ("a b c d e f".toList = [] ∨ (pyStrip "a b c d e f".toList).length < 10))]
    simp only [applyRules]
    split_ifs with hA hB hC hD hE
    · exact absurd hA (by norm_num)
    · exact absurd rfl hB.2
    · exact absurd hC.1 (by decide)
    · exact absurd hD.1 (by decide)
    · exact absurd hE.1 (by norm_num)
    · rfl

/-- C3 (amended): `classify` returns `"Unclassifiable"` without consulting
the external classifier exactly under the code's guard — the text is empty
or its *strip* (leading and trailing whitespace removed) is shorter than 10
characters; internal whitespace still counts towards the length. -/
theorem C3_guard (text : Str)
    (h : text = [] ∨ (pyStrip text).length < 10) :
    ∀ ext : Str → Option (String × ℚ), classify ext text = "Unclassifiable" := by
  intro ext
  unfold classify
  rw [if_pos h]

/-- Witness for `C3_guard` at the concrete text `"hi"`. -/
theorem C3_guard_witness :
    ("hi".toList = [] ∨ (pyStrip "hi".toList).length < 10) ∧
    classify (fun _ => some ("Invoice", 9/10)) "hi".toList = "Unclassifiable" :=
  ⟨Or.inr (by decide),
   C3_guard "hi".toList (Or.inr (by decide)) (fun _ => some ("Invoice", 9/10))⟩

/-! ## C4 -/

/-- The date cascade loop equals: first pattern (in order) whose leftmost
match normalizes. -/
theorem extractDateAux_eq (ps : List (Str → Option Str)) (text : Str) :
    extractDateAux ps text
      = (ps.filterMap fun p => (reFind p text).bind normalizeDate).head? := by
  induction ps with
  | nil => rfl
  | cons p ps ih =>
    rw [extractDateAux]
    cases hm : reFind p text with
    | none => simp [List.filterMap_cons, hm, ih]
    | some m =>
      cases hn : normalizeDate m with
      | none => simp [List.filterMap_cons, hm, hn, ih]
      | some n => simp [List.filterMap_cons, hm, hn]

theorem digitChar_mod_isDigit (n : ℕ) : (Nat.digitChar (n % 10)).isDigit = true := by
  have h : n % 10 < 10 := Nat.mod_lt _ (by norm_num)
  have hall : ∀ k : Fin 10, (Nat.digitChar k.1).isDigit = true := by decide
  exact hall ⟨n % 10, h⟩

/-- `strftime('%Y-%m-%d')` output always has the canonical shape. -/
theorem isCanonicalISO_fmt (p : DateParts) : isCanonicalISO (fmtDateISO p) = true := by
  show isCanonicalISO (pad4 p.y ++ '-' :: pad2 p.mo ++ '-' :: pad2 p.dy) = true
  simp [pad4, pad2, isCanonicalISO, digitChar_mod_isDigit]

/-- Whatever `_normalize_date` returns came out of the canonical
formatter. -/
theorem normalizeDate_shape {s r : Str} (h : normalizeDate s = some r) :
    ∃ p : DateParts, r = fmtDateISO p := by
  unfold normalizeDate at h
  obtain ⟨dirs, _, hd⟩ := List.exists_of_findSome?_eq_some h
  cases hp : parseWith dirs s with
  | none => rw [hp] at hd; simp at hd
  | some p =>
    rw [hp] at hd
    simp only [Option.some_bind] at hd
    by_cases hv : validDate p = true
    · rw [if_pos hv] at hd
      exact ⟨p, (Option.some.injEq _ _).mp hd.symm⟩
    · rw [if_neg hv] at hd; cases hd

/-- Any successful result of the date cascade came out of
`_normalize_date`. -/
theorem extractDateAux_shape (ps : List (Str → Option Str)) (text s : Str)
    (h : extractDateAux ps text = some s) : ∃ m, normalizeDate m = some s := by
  rw [extractDateAux_eq] at h
  have hmem : s ∈ ps.filterMap fun p => (reFind p text).bind normalizeDate :=
    List.mem_of_mem_head? h
  obtain ⟨p, _, hp⟩ := List.mem_filterMap.mp hmem
  cases hr : reFind p text with
  | none => rw [hr] at hp; cases hp
  | some m =>
    rw [hr] at hp
    exact ⟨m, by simpa using hp⟩

/-- C4 counterexample: in `"2024-13-99 01/15/2024"` the first date shape
(ISO) matches `"2024-13-99"`, which parses under no format; the claim says
the date field is then omitted, but the code consults the later MM/DD/YYYY
shape and returns `"2024-01-15"`. -/
theorem C4_first_shape_counterexample :
    reFind matchDateISO "2024-13-99 01/15/2024".toList = some "2024-13-99".toList ∧
    normalizeDate "2024-13-99".toList = none ∧
    extractDate "2024-13-99 01/15/2024".toList = some "2024-01-15".toList := by
  refine ⟨by decide, by decide, by decide⟩

/-- C4 (amended): the date-shape patterns are consulted in their fixed
order, and the result is the first shape whose leftmost match parses under
some format (a shape whose match parses under no format does not stop the
cascade — later shapes are consulted); the date field is omitted only when
no shape's match parses, and every successful value is re-emitted in
canonical `YYYY-MM-DD` form. -/
theorem C4_date_cascade (text : Str) :
    extractDate text = extractDateSpec text ∧
    ∀ s, extractDate text = some s → isCanonicalISO s = true := by
  constructor
  · exact extractDateAux_eq datePatterns text
  · intro s hs
    obtain ⟨m, hm⟩ := extractDateAux_shape datePatterns text s hs
    obtain ⟨p, hp⟩ := normalizeDate_shape hm
    rw [hp]
    exact isCanonicalISO_fmt p

/-- Witness for `C4_date_cascade` at a concrete text. -/
theorem C4_date_cascade_witness :
    extractDate "due 2024-01-15".toList = some "2024-01-15".toList ∧
    isCanonicalISO "2024-01-15".toList = true := by
  have h := C4_date_cascade "due 2024-01-15".toList
  have he : extractDate "due 2024-01-15".toList = some "2024-01-15".toList := by decide
  exact ⟨he, h.2 _ he⟩

/-! ## C5 -/

/-- C5: the extraction dispatch is a total function of `(text, label)` (in
this embedding every fallible step of the cascade is `Option`-valued and
handled, mirroring the code's guarded parses), and every label other than
`"Invoice"`, `"Resume"` and `"Utility Bill"` — in particular `"Other"` and
`"Unclassifiable"` — yields the empty field mapping. -/
theorem C5_extract_dispatch (text : Str) (docType : String)
    (h1 : docType ≠ "Invoice") (h2 : docType ≠ "Resume")
    (h3 : docType ≠ "Utility Bill") :
    extract text docType = [] := by
  unfold extract
  rw [if_neg h1, if_neg h2, if_neg h3]

/-- Witness for `C5_extract_dispatch` on malformed text and the labels
`"Other"` and `"Unclassifiable"`. -/
theorem C5_extract_dispatch_witness :
    (("Other" : String) ≠ "Invoice" ∧ ("Other" : String) ≠ "Resume" ∧
      ("Other" : String) ≠ "Utility Bill") ∧
    extract "!!! total: , @@ 99-99-9999 ..".toList "Other" = [] ∧
    extract "!!! total: , @@ 99-99-9999 ..".toList "Unclassifiable" = [] :=
  ⟨⟨by decide, by decide, by decide⟩,
   C5_extract_dispatch _ "Other" (by decide) (by decide) (by decide),
   C5_extract_dispatch _ "Unclassifiable" (by decide) (by decide) (by decide)⟩

/-! ## C6 -/

/-- C6: `classify` returns `"Unclassifiable"` whenever the external
classifier raises (its single fallback, with no retry — the oracle is
consulted once by construction), and whenever the returned top confidence
is below 0.30; in both cases the rule refinement is not applied. -/
theorem C6_failure_fallback (text : Str) (ext : Str → Option (String × ℚ))
    (label : String) (conf : ℚ) :
    (ext (text.take 2000) = none → classify ext text = "Unclassifiable") ∧
    (ext (text.take 2000) = some (label, conf) → conf < 3/10 →
      classify ext text = "Unclassifiable") := by
  constructor
  · intro h
    unfold classify
    by_cases hg : text = [] ∨ (pyStrip text).length < 10
    · rw [if_pos hg]
    · rw [if_neg hg, h]
  · intro h hc
    unfold classify
    by_cases hg : text = [] ∨ (pyStrip text).length < 10
    · rw [if_pos hg]
    · rw [if_neg hg, h]
      simp [hc]

/-- Witness for `C6_failure_fallback`: on a keyword-laden text the rule
engine alone would say `"Invoice"`, but a raising classifier and a
low-confidence classifier both yield `"Unclassifiable"`. -/
theorem C6_failure_fallback_witness :
    classify (fun _ => none) "invoice subtotal tax vat due date".toList
      = "Unclassifiable" ∧
    applyRules "invoice subtotal tax vat due date".toList "Other" (9/10)
      = "Invoice" ∧
    classify (fun _ => some ("Other", 1/5)) "invoice subtotal tax vat due date".toList
      = "Unclassifiable" := by
  refine ⟨(C6_failure_fallback "invoice subtotal tax vat due date".toList
            (fun _ => none) "Other" (1/5)).1 rfl, ?_, ?_⟩
  · simp only [applyRules]
    split_ifs with hA <;>
      first
        | rfl
        | exact absurd ⟨by decide, by decide⟩ hA
  · exact (C6_failure_fallback "invoice subtotal tax vat due date".toList
      (fun _ => some ("Other", 1/5)) "Other" (1/5)).2 rfl (by norm_num)

/-! ## C7 -/

/-- C7: for every collection id with no in-memory index, `search` returns
the empty result list (not an error), and the search endpoint then answers
with `total_results = 0` and an empty results list. -/
theorem C7_unknown_collection (sim : SimOracle) (st : StoreState)
    (idx : String) (q : Str) (k : ℕ)
    (h : lookupStore st idx = none) :
    search sim st idx q k = [] ∧
    searchDocuments sim st ⟨idx, q, k⟩ =
      { query := q, results := [], total_results := 0 } := by
  have hs : search sim st idx q k = [] := by
    unfold search
    rw [h]
  refine ⟨hs, ?_⟩
  unfold searchDocuments
  simp [hs]

/-- Witness for `C7_unknown_collection`: the empty store (zero `add`
calls) has no index for `"docs"`. -/
theorem C7_unknown_collection_witness :
    lookupStore ([] : StoreState) "docs" = none ∧
    search (fun _ _ _ => some []) [] "docs" "q".toList 5 = [] ∧
    searchDocuments (fun _ _ _ => some []) [] ⟨"docs", "q".toList, 5⟩ =
      { query := "q".toList, results := [], total_results := 0 } := by
  have h := C7_unknown_collection (fun _ _ _ => some []) [] "docs" "q".toList 5 rfl
  exact ⟨rfl, h.1, h.2⟩

/-! ## C8 -/

theorem formatResults_length (n : ℕ) (rs : List (Doc × ℚ)) :
    (formatResults n rs).length = rs.length := by
  induction rs generalizing n with
  | nil => rfl
  | cons r rest ih => simp [formatResults, ih]

theorem formatResults_get (n : ℕ) (rs : List (Doc × ℚ)) (i : ℕ)
    (h : i < (formatResults n rs).length) (h2 : i < rs.length) :
    (formatResults n rs).get ⟨i, h⟩ = fmtOne (n + i) (rs.get ⟨i, h2⟩) := by
  induction rs generalizing n i with
  | nil => exact absurd h2 (by simp)
  | cons r rest ih =>
    cases i with
    | zero => simp [formatResults]
    | succ i =>
      have h' : i < (formatResults (n + 1) rest).length := by
        simpa [formatResults] using h
      have h2' : i < rest.length := by simpa using h2
      have := ih (n + 1) i h' h2'
      simp only [formatResults, List.get_cons_succ, this]
      congr 1
      omega

theorem formatResults_mem {r : FormattedResult} :
    ∀ {n : ℕ} {rs : List (Doc × ℚ)}, r ∈ formatResults n rs →
      ∃ i x, x ∈ rs ∧ r = fmtOne i x := by
  intro n rs
  induction rs generalizing n with
  | nil => intro h; cases h
  | cons x rest ih =>
    intro h
    rw [formatResults] at h
    rcases List.mem_cons.mp h with h | h
    · exact ⟨n, x, List.mem_cons_self x rest, h⟩
    · obtain ⟨i, y, hy, hr⟩ := ih h
      exact ⟨i, y, List.mem_cons_of_mem x hy, hr⟩

/-- The snippet is never longer than 303 characters (300 plus the
three-character ellipsis). -/
theorem snippetOf_length_le (content : Str) : (snippetOf content).length ≤ 303 := by
  unfold snippetOf
  split_ifs with h
  · simp only [List.length_append, List.length_take]
    have h3 : ("...".toList : Str).length = 3 := rfl
    omega
  · omega

/-- C8: when a similarity search succeeds, the formatted results carry a
dense 1-based rank, a score rounded (half-even) to 4 decimal places, and a
snippet that equals the full source text when it is at most 300 characters
and its first 300 characters followed by `"..."` otherwise — hence never
more than 303 characters. -/
theorem C8_result_format (sim : SimOracle) (st : StoreState) (idx : String)
    (q : Str) (k : ℕ) (docs : List Doc) (rs : List (Doc × ℚ))
    (hl : lookupStore st idx = some docs) (hsim : sim docs q k = some rs) :
    search sim st idx q k = formatResults 0 rs ∧
    (search sim st idx q k).length = rs.length ∧
    (∀ i (hi : i < (search sim st idx q k).length),
      ((search sim st idx q k).get ⟨i, hi⟩).rank = i + 1) ∧
    (∀ i (hi : i < (search sim st idx q k).length) (hj : i < rs.length),
      ((search sim st idx q k).get ⟨i, hi⟩).score = round4 (rs.get ⟨i, hj⟩).2 ∧
      ((rs.get ⟨i, hj⟩).1.pageContent.length ≤ 300 →
        ((search sim st idx q k).get ⟨i, hi⟩).snippet
          = (rs.get ⟨i, hj⟩).1.pageContent) ∧
      (300 < (rs.get ⟨i, hj⟩).1.pageContent.length →
        ((search sim st idx q k).get ⟨i, hi⟩).snippet
          = (rs.get ⟨i, hj⟩).1.pageContent.take 300 ++ "...".toList)) ∧
    (∀ r ∈ search sim st idx q k, r.snippet.length ≤ 303) := by
  have hse : search sim st idx q k = formatResults 0 rs := by
    simp only [search, hl, hsim]
  refine ⟨hse, ?_, ?_, ?_, ?_⟩
  · rw [hse, formatResults_length]
  · rw [hse]
    intro i hi
    have hj : i < rs.length := by rw [formatResults_length] at hi; exact hi
    rw [formatResults_get 0 rs i hi hj]
    simp [fmtOne]
  · rw [hse]
    intro i hi hj
    rw [formatResults_get 0 rs i hi hj]
    refine ⟨rfl, ?_, ?_⟩
    · intro hle
      show snippetOf (rs.get ⟨i, hj⟩).1.pageContent = (rs.get ⟨i, hj⟩).1.pageContent
      simp only [snippetOf]
      rw [if_neg (Nat.not_lt.mpr hle)]
    · intro hgt
      show snippetOf (rs.get ⟨i, hj⟩).1.pageContent
          = (rs.get ⟨i, hj⟩).1.pageContent.take 300 ++ "...".toList
      simp only [snippetOf]
      rw [if_pos hgt]
  · rw [hse]
    intro r hr
    obtain ⟨i, x, _, hfr⟩ := formatResults_mem hr
    rw [hfr]
    exact snippetOf_length_le x.1.pageContent

/-- Witness for `C8_result_format` on a one-document collection. -/
theorem C8_result_format_witness :
    search (fun _ _ _ => some [(⟨"hello".toList, some "a.pdf".toList⟩, 1/2)])
        [("docs", [⟨"hello".toList, some "a.pdf".toList⟩])] "docs" "q".toList 1
      = formatResults 0 [(⟨"hello".toList, some "a.pdf".toList⟩, 1/2)] ∧
    (∀ r ∈ search (fun _ _ _ => some [(⟨"hello".toList, some "a.pdf".toList⟩, 1/2)])
        [("docs", [⟨"hello".toList, some "a.pdf".toList⟩])] "docs" "q".toList 1,
      r.snippet.length ≤ 303) := by
  have h := C8_result_format (fun _ _ _ => some [(⟨"hello".toList, some "a.pdf".toList⟩, 1/2)])
    [("docs", [⟨"hello".toList, some "a.pdf".toList⟩])] "docs" "q".toList 1
    [⟨"hello".toList, some "a.pdf".toList⟩] [(⟨"hello".toList, some "a.pdf".toList⟩, 1/2)]
    rfl rfl
  exact ⟨h.1, h.2.2.2.2⟩

/-! ## C9 -/

/-- C9: for texts longer than 2000 characters the classifier oracle only
ever sees the first 2000 characters (two oracles agreeing on that sample
produce the same classification), while the Rule Engine receives the
complete untruncated text: the final label is `applyRules` on the full
text, so overrides and the demotion rule can hinge on keywords that occur
entirely after position 2000. -/
theorem C9_truncate_vs_rules (text : Str)
    (ext extB : Str → Option (String × ℚ)) (label : String) (conf : ℚ)
    (_hlen : 2000 < text.length)
    (hagree : ext (text.take 2000) = extB (text.take 2000)) :
    classify ext text = classify extB text ∧
    (¬ (text = [] ∨ (pyStrip text).length < 10) →
      ext (text.take 2000) = some (label, conf) → ¬ conf < 3/10 →
      classify ext text = applyRules text label conf) := by
  constructor
  · unfold classify
    rw [hagree]
  · intro hg hext hconf
    unfold classify
    rw [if_neg hg, hext]
    simp [hconf]

/-- Witness for `C9_truncate_vs_rules` on a 2001-character text. -/
theorem C9_truncate_vs_rules_witness :
    classify (fun _ => some ("Other", 9/10)) ('a' :: List.replicate 2000 'x')
      = applyRules ('a' :: List.replicate 2000 'x') "Other" (9/10) := by
  have hlen : 2000 < ('a' :: List.replicate 2000 'x').length := by
    rw [List.length_cons, List.length_replicate]
    omega
  have hstrip : pyStrip ('a' :: List.replicate 2000 'x')
      = 'a' :: List.replicate 2000 'x' := by
    unfold pyStrip
    have h1 : List.dropWhile isPyWs ('a' :: List.replicate 2000 'x')
        = 'a' :: List.replicate 2000 'x' := by
      rw [List.dropWhile_cons, if_neg (by decide)]
    have h2 : List.dropWhile isPyWs (List.replicate 2000 'x' ++ ['a'])
        = List.replicate 2000 'x' ++ ['a'] := by
      rw [show (2000 : ℕ) = 1999 + 1 from rfl, List.replicate_succ,
        List.cons_append, List.dropWhile_cons, if_neg (by decide)]
    rw [h1, List.reverse_cons, List.reverse_replicate, h2, List.reverse_append,
      List.reverse_replicate, List.reverse_cons, List.reverse_nil,
      List.nil_append, List.singleton_append]
  have hg : ¬ (('a' :: List.replicate 2000 'x') = [] ∨
      (pyStrip ('a' :: List.replicate 2000 'x')).length < 10) := by
    push_neg
    refine ⟨List.cons_ne_nil _ _, ?_⟩
    rw [hstrip, List.length_cons, List.length_replicate]
    omega
  have h := C9_truncate_vs_rules ('a' :: List.replicate 2000 'x')
    (fun _ => some ("Other", 9/10)) (fun _ => some ("Other", 9/10))
    "Other" (9/10) hlen rfl
  exact h.2 hg rfl (by norm_num)

/-! ## C10 -/

/-- C10: the upload endpoint's PDF check is a case-sensitive suffix test on
the filename: any filename not ending in the exact lowercase `".pdf"` is
rejected with HTTP 400 before any side effect — no file save, no
classification, no extraction, no index addition — and the index state is
unchanged, whatever the collaborators would have answered. -/
theorem C10_pdf_suffix_check (extractTextO : String → Str)
    (ext : Str → Option (String × ℚ)) (st : StoreState)
    (filename indexName : String)
    (h : strEndsWith filename ".pdf" = false) :
    uploadDocument extractTextO ext st filename indexName =
      (.error (400, "Only PDF files are supported"), [], st) := by
  unfold uploadDocument
  rw [if_pos (by simp [h])]

/-- Witness for `C10_pdf_suffix_check`: `"report.PDF"` (uppercase
extension) is rejected with 400 and no effects. -/
theorem C10_pdf_suffix_check_witness :
    strEndsWith "report.PDF" ".pdf" = false ∧
    uploadDocument (fun _ => "plenty of extracted text".toList)
        (fun _ => some ("Invoice", 9/10)) [] "report.PDF" "default" =
      (.error (400, "Only PDF files are supported"), [], []) :=
  ⟨by decide,
   C10_pdf_suffix_check (fun _ => "plenty of extracted text".toList)
     (fun _ => some ("Invoice", 9/10)) [] "report.PDF" "default" (by decide)⟩

end DocPipeline
